import Mathlib

/-
Shallow embedding of src/harness/fuzzware_harness/native/interrupt_triggers.c.

The trigger engine, the registration function and the snapshot adapter are
translated from the C source.  The external collaborators (NVIC model,
fuzz-input source, timer subsystem) live in other files of the repository
that are not part of src/, so their interfaces are modelled from the spec
(section 6 of spec.md); each such definition is marked in its doc comment.

Machine-integer remarks: the C record fields are declared in
interrupt_triggers.h, which is not under src/; the spec's data model gives
them as plain unsigned integers, so they are modelled as Nat (and a Bool
for the skip_next flag).  Fuzz bytes are read into a uint8_t in the C code,
which is modelled by reducing the consumed value modulo 256.
-/

namespace Fuzzware

/-- Modelled from the spec: the trigger-mode enum {ADDRESS, TIME, TIME_FUZZED}
is declared in interrupt_triggers.h (not under src/); C enums number
consecutively from 0. -/
def IRQ_TRIGGER_MODE_ADDRESS : Nat := 0

/-- Modelled from the spec: second trigger-mode enum value. -/
def IRQ_TRIGGER_MODE_TIME : Nat := 1

/-- Modelled from the spec: third trigger-mode enum value. -/
def IRQ_TRIGGER_MODE_TIME_FUZZED : Nat := 2

/-- Modelled from the spec: the fuzz-mode enum {FIXED, FUZZ_ENABLED_INDEX,
ROUND_ROBIN} is declared in interrupt_triggers.h (not under src/). -/
def IRQ_FUZZ_MODE_FIXED : Nat := 0

/-- Modelled from the spec: second fuzz-mode enum value. -/
def IRQ_FUZZ_MODE_FUZZ_ENABLED_IRQ_INDEX : Nat := 1

/-- Modelled from the spec: third fuzz-mode enum value. -/
def IRQ_FUZZ_MODE_ROUND_ROBIN : Nat := 2

/-- interrupt_triggers.c line 8. -/
def MAX_INTERRUPT_TRIGGERS : Nat := 256

/-- interrupt_triggers.c line 10. -/
def FUZZER_TIME_RELOAD_CHOICES : Nat := 8

/-- interrupt_triggers.c lines 11-21: the table of candidate timer reload
values, given as a function of IRQ_DEFAULT_TIMER_INTERVAL (a constant of
timer.h, which is not under src/, hence the parameter d). -/
def FUZZER_TIME_RELOAD_VALS (d : Nat) : List Nat :=
  [d, d / 2, d / 4, 1, d * 4, d * 8, d * 16, d * 2]

/-- One Trigger Record (struct InterruptTrigger of interrupt_triggers.h; the
header is not under src/, the fields are those the C source reads and
writes, with the spec's data-model types). -/
structure InterruptTrigger where
  irq : Nat
  curr_pends : Nat
  curr_skips : Nat
  times_to_pend : Nat
  times_to_skip : Nat
  fuzz_mode : Nat
  trigger_mode : Nat
  round_robin_index : Nat
  skip_next : Bool
  timer_id : Nat
deriving DecidableEq, Repr

/-- Modelled from the spec: the NVIC model's observable state at selection
time is its ordered set of currently enabled IRQ numbers (cortexm_nvic.c is
not under src/). -/
structure Nvic where
  enabled : List Nat
deriving DecidableEq, Repr

/-- Modelled from the spec: count_enabled, the number of currently enabled
IRQs reported by the NVIC model. -/
def get_num_enabled (nvic : Nvic) : Nat := nvic.enabled.length

/-- Modelled from the spec: nth_enabled, the ordered enabled-set query of the
NVIC model; per spec section 4.3 the cursor "wraps via modulo at lookup
time", so the index is reduced modulo the enabled count. -/
def nth_enabled_irq_num (nvic : Nvic) (n : Nat) : Nat :=
  nvic.enabled.getD (n % nvic.enabled.length) 0

/-- Result of one invocation of the trigger engine: the updated record, the
remaining fuzz-input stream, the IRQ numbers passed to nvic_set_pending (in
call order), and the indices chosen into FUZZER_TIME_RELOAD_VALS by
set_timer_reload_val calls. -/
structure TickResult where
  trig : InterruptTrigger
  fuzz : List Nat
  pends : List Nat
  reload_choices : List Nat
deriving DecidableEq, Repr

/-- interrupt_triggers.c lines 124-133: the end-of-tick cycle reset check,
reached on every path of the tick that does not return early. -/
def cycle_reset_check (t : InterruptTrigger) : InterruptTrigger :=
  if t.curr_pends = t.times_to_pend then
    { t with curr_pends := 0, curr_skips := 0, skip_next := true }
  else t

/-- interrupt_triggers.c lines 55-107: the switch over fuzz_mode that
chooses the irq to pend.  The fuzz-input source (get_fuzz of native_hooks.c,
not under src/) is modelled from the spec as consuming one byte of the
stream, signalling exhaustion (none, the C early return) when the stream is
empty. -/
def fuzz_mode_selector (nvic : Nvic) (t : InterruptTrigger) (fuzz : List Nat) :
    Option (InterruptTrigger × List Nat) :=
  if t.fuzz_mode = IRQ_FUZZ_MODE_FIXED then
    -- pend in all cases, fall through
    some (t, fuzz)
  else if t.fuzz_mode = IRQ_FUZZ_MODE_FUZZ_ENABLED_IRQ_INDEX then
    -- num_enabled = get_num_enabled()
    if get_num_enabled nvic ≠ 0 then
      if get_num_enabled nvic ≠ 1 then
        match fuzz with
        | [] => none
        | b :: rest => some ({ t with irq := nth_enabled_irq_num nvic (b % 256) }, rest)
      else
        -- only one irq enabled: choose it without consuming fuzz input
        some ({ t with irq := nth_enabled_irq_num nvic 0 }, fuzz)
    else
      -- no irqs are enabled
      some ({ t with irq := 0 }, fuzz)
  else if t.fuzz_mode = IRQ_FUZZ_MODE_ROUND_ROBIN then
    if get_num_enabled nvic ≠ 0 then
      some
        ({ t with
            irq := nth_enabled_irq_num nvic t.round_robin_index
            round_robin_index := t.round_robin_index + 1 },
          fuzz)
    else
      -- no irqs are enabled
      some ({ t with irq := 0 }, fuzz)
  else
    some ({ t with irq := 0 }, fuzz)

/-- interrupt_triggers.c lines 117-121 followed by lines 124-133: the actual
pending (guarded by irq being nonzero) and the cycle reset check. -/
def pend_step (t : InterruptTrigger) (fuzz : List Nat) (reload_choices : List Nat) :
    TickResult :=
  if t.irq ≠ 0 then
    { trig := cycle_reset_check { t with curr_pends := t.curr_pends + 1 },
      fuzz := fuzz, pends := [t.irq], reload_choices := reload_choices }
  else
    { trig := cycle_reset_check t,
      fuzz := fuzz, pends := [], reload_choices := reload_choices }

/-- interrupt_triggers.c lines 54-133: the final else branch of the tick
(waiting is over): the fuzz-mode switch, the TIME_FUZZED reload-value fuzz
read (lines 109-115, aborting the tick on exhaustion), then the actual
pending and the cycle reset check. -/
def selection_step (nvic : Nvic) (t : InterruptTrigger) (fuzz : List Nat) : TickResult :=
  match fuzz_mode_selector nvic t fuzz with
  | none => { trig := t, fuzz := fuzz, pends := [], reload_choices := [] }
  | some (t1, fuzz1) =>
    if t1.trigger_mode = IRQ_TRIGGER_MODE_TIME_FUZZED then
      match fuzz1 with
      | [] => { trig := t1, fuzz := fuzz1, pends := [], reload_choices := [] }
      | b :: rest => pend_step t1 rest [(b % 256) % FUZZER_TIME_RELOAD_CHOICES]
    else
      pend_step t1 fuzz1 []

/-- interrupt_triggers.c lines 29-134: one tick of the trigger engine as
delivered by a basic-block hook. -/
def interrupt_trigger_tick_block_hook (nvic : Nvic) (t : InterruptTrigger)
    (fuzz : List Nat) : TickResult :=
  if t.skip_next then
    -- we are coming from where we triggered the interrupt
    { trig := { t with skip_next := false }, fuzz := fuzz, pends := [], reload_choices := [] }
  else if t.curr_pends ≠ 0 then
    -- already on the pending train, follow it
    { trig := cycle_reset_check { t with curr_pends := t.curr_pends + 1 },
      fuzz := fuzz, pends := [t.irq], reload_choices := [] }
  else if t.curr_skips < t.times_to_skip then
    -- we need to wait for a bit longer
    { trig := cycle_reset_check { t with curr_skips := t.curr_skips + 1 },
      fuzz := fuzz, pends := [], reload_choices := [] }
  else
    selection_step nvic t fuzz

/-- interrupt_triggers.c lines 136-140: one tick of the trigger engine as
delivered by a timer expiry; the callback unconditionally clears skip_next
after the tick. -/
def interrupt_trigger_timer_cb (nvic : Nvic) (t : InterruptTrigger)
    (fuzz : List Nat) : TickResult :=
  let r := interrupt_trigger_tick_block_hook nvic t fuzz
  { r with trig := { r.trig with skip_next := false } }

/-- The trigger registry (interrupt_triggers.c lines 24-27): the in-use
prefix of the static trigger array, in registration order; the count of
records in use is its length. -/
structure TriggerRegistry where
  triggers : List InterruptTrigger
deriving DecidableEq, Repr

/-- Outcome of add_interrupt_trigger: either the process terminated via
exit(-1), or the function returned a code with the updated registry. -/
inductive AddResult where
  | fatal_exit : AddResult
  | ret : Int → TriggerRegistry → AddResult
deriving DecidableEq, Repr

/-- interrupt_triggers.c lines 142-179.  The outcome of the external
uc_hook_add call is the parameter hook_add_ok; the timer id returned by the
external add_timer call is the parameter new_timer_id (both collaborators
are outside src/).  A fresh slot of the static array has skip_next and
timer_id zero-initialized; slots are never reused. -/
def add_interrupt_trigger (reg : TriggerRegistry) (hook_add_ok : Bool)
    (new_timer_id : Nat) (irq num_skips num_pends fuzz_mode trigger_mode : Nat)
    (every_nth_tick : Nat) : AddResult :=
  if MAX_INTERRUPT_TRIGGERS ≤ reg.triggers.length then
    AddResult.fatal_exit
  else
    let t : InterruptTrigger :=
      { irq := irq
        curr_pends := 0
        -- don't skip for the very first invocation
        curr_skips := num_skips
        times_to_pend := num_pends
        times_to_skip := num_skips
        fuzz_mode := fuzz_mode
        trigger_mode := trigger_mode
        round_robin_index := 0
        skip_next := false
        timer_id := 0 }
    if trigger_mode = IRQ_TRIGGER_MODE_ADDRESS then
      if hook_add_ok then AddResult.ret 0 ⟨reg.triggers ++ [t]⟩
      else AddResult.fatal_exit
    else if trigger_mode = IRQ_TRIGGER_MODE_TIME ∨
            trigger_mode = IRQ_TRIGGER_MODE_TIME_FUZZED then
      -- every_nth_tick (defaulted when zero) is passed to the external timer
      -- subsystem; the record keeps the returned timer id
      AddResult.ret 0 ⟨reg.triggers ++ [{ t with timer_id := new_timer_id }]⟩
    else
      AddResult.ret (-1) ⟨reg.triggers ++ [t]⟩

/-- interrupt_triggers.c lines 181-186: copy the in-use records into a fresh
buffer. -/
def interrupt_trigger_take_snapshot (reg : TriggerRegistry) : List InterruptTrigger :=
  reg.triggers

/-- interrupt_triggers.c lines 188-190: copy num_triggers_inuse records from
the snapshot buffer back over the in-use prefix of the live array. -/
def interrupt_trigger_restore_snapshot (reg : TriggerRegistry)
    (snapshot : List InterruptTrigger) : TriggerRegistry :=
  ⟨snapshot.take reg.triggers.length⟩

/-- Result of delivering one tick to the record at a given registry index. -/
structure RegistryTickResult where
  reg : TriggerRegistry
  fuzz : List Nat
  pends : List Nat
deriving DecidableEq, Repr

/-- Deliver one tick to the record at index i of the registry, through the
block hook (via_timer = false) or through the timer callback (via_timer =
true); an out-of-range index changes nothing. -/
def registry_tick (nvic : Nvic) (reg : TriggerRegistry) (i : Nat)
    (fuzz : List Nat) (via_timer : Bool) : RegistryTickResult :=
  match reg.triggers[i]? with
  | none => { reg := reg, fuzz := fuzz, pends := [] }
  | some t =>
    let r := if via_timer then interrupt_trigger_timer_cb nvic t fuzz
             else interrupt_trigger_tick_block_hook nvic t fuzz
    { reg := ⟨reg.triggers.set i r.trig⟩, fuzz := r.fuzz, pends := r.pends }

/-- Run a script of ticks against the registry (each entry: NVIC state at
that tick, registry index, fuzz stream for that tick, delivery path). -/
def run_ticks (reg : TriggerRegistry) :
    List (Nvic × Nat × List Nat × Bool) → TriggerRegistry
  | [] => reg
  | (nvic, i, fuzz, vt) :: rest => run_ticks (registry_tick nvic reg i fuzz vt).reg rest

/-- Iterate the block-hook tick n times on a record and its fuzz stream. -/
def tick_iter (nvic : Nvic) : Nat → InterruptTrigger × List Nat → InterruptTrigger × List Nat
  | 0, s => s
  | n + 1, s =>
    let r := interrupt_trigger_tick_block_hook nvic s.1 s.2
    tick_iter nvic n (r.trig, r.fuzz)

/-- The skip/pend cycle bounds of spec section 3 (with the strict pend bound
that the engine actually maintains for times_to_pend ≥ 1). -/
def cycle_inv (t : InterruptTrigger) : Prop :=
  t.curr_pends < t.times_to_pend ∧ t.curr_skips ≤ t.times_to_skip

/-- A record is only ever mid-cycle with a nonzero target irq. -/
def pend_irq_inv (t : InterruptTrigger) : Prop :=
  t.curr_pends ≠ 0 → t.irq ≠ 0

/-- Registry states reachable through the operations that mutate trigger
records: setup registrations that return, ticks on any record, and
restoration of a snapshot taken at a reachable state of the same
registration count. -/
inductive ReachableReg : TriggerRegistry → Prop where
  | init : ReachableReg ⟨[]⟩
  | add (reg : TriggerRegistry) (hook_add_ok : Bool)
      (new_timer_id irq num_skips num_pends fuzz_mode trigger_mode every_nth_tick : Nat)
      (code : Int) (reg' : TriggerRegistry) :
      ReachableReg reg →
      add_interrupt_trigger reg hook_add_ok new_timer_id irq num_skips num_pends
        fuzz_mode trigger_mode every_nth_tick = AddResult.ret code reg' →
      ReachableReg reg'
  | tick (reg : TriggerRegistry) (nvic : Nvic) (i : Nat) (fuzz : List Nat)
      (via_timer : Bool) :
      ReachableReg reg → ReachableReg (registry_tick nvic reg i fuzz via_timer).reg
  | restore (reg reg' : TriggerRegistry) :
      ReachableReg reg → ReachableReg reg' →
      reg'.triggers.length = reg.triggers.length →
      ReachableReg (interrupt_trigger_restore_snapshot reg'
        (interrupt_trigger_take_snapshot reg))

/-- The record that add_interrupt_trigger writes into a fresh slot before
binding a hook or timer (interrupt_triggers.c lines 150-160, with the
slot's zero-initialized skip_next and timer_id). -/
def fresh_trigger (irq num_skips num_pends fuzz_mode trigger_mode : Nat) :
    InterruptTrigger :=
  { irq := irq, curr_pends := 0, curr_skips := num_skips,
    times_to_pend := num_pends, times_to_skip := num_skips,
    fuzz_mode := fuzz_mode, trigger_mode := trigger_mode,
    round_robin_index := 0, skip_next := false, timer_id := 0 }

/-- Concrete record for the C1 witness: a FUZZ_ENABLED_INDEX address trigger
past its waiting phase. -/
def c1_t : InterruptTrigger :=
  { irq := 0, curr_pends := 0, curr_skips := 0, times_to_pend := 2, times_to_skip := 0,
    fuzz_mode := 1, trigger_mode := 0, round_robin_index := 0, skip_next := false,
    timer_id := 0 }

/-- Concrete record for the C2 counterexample: the record produced by
registering a TIME trigger with irq 5, one skip and one pend. -/
def c2_t0 : InterruptTrigger :=
  { irq := 5, curr_pends := 0, curr_skips := 1, times_to_pend := 1, times_to_skip := 1,
    fuzz_mode := 0, trigger_mode := 1, round_robin_index := 0, skip_next := false,
    timer_id := 0 }

/-- First timer tick on c2_t0: pends irq 5 and resets the cycle. -/
def c2_r1 : TickResult := interrupt_trigger_timer_cb ⟨[]⟩ c2_t0 []

/-- Second timer tick on the same trigger. -/
def c2_r2 : TickResult := interrupt_trigger_timer_cb ⟨[]⟩ c2_r1.trig []

/-- Concrete record for the C3 counterexample: the record produced by
registering an ADDRESS trigger with irq 5, one skip and two pends. -/
def c3_t0 : InterruptTrigger :=
  { irq := 5, curr_pends := 0, curr_skips := 1, times_to_pend := 2, times_to_skip := 1,
    fuzz_mode := 0, trigger_mode := 0, round_robin_index := 0, skip_next := false,
    timer_id := 0 }

/-- Concrete record for the C3 witness: same configuration just after a
cycle reset and its absorbed tick (curr_skips back at 0). -/
def c3_t1 : InterruptTrigger :=
  { irq := 5, curr_pends := 0, curr_skips := 0, times_to_pend := 2, times_to_skip := 1,
    fuzz_mode := 0, trigger_mode := 0, round_robin_index := 0, skip_next := false,
    timer_id := 0 }

/-- Concrete record for the C4 counterexample: a ROUND_ROBIN address trigger
past its waiting phase with cursor 7. -/
def c4_t : InterruptTrigger :=
  { irq := 0, curr_pends := 0, curr_skips := 0, times_to_pend := 1, times_to_skip := 0,
    fuzz_mode := 2, trigger_mode := 0, round_robin_index := 7, skip_next := false,
    timer_id := 0 }

/-- Concrete record for the C5 counterexample: the record produced by
registering an ADDRESS trigger with irq 5, zero skips and zero pends. -/
def c5_t0 : InterruptTrigger :=
  { irq := 5, curr_pends := 0, curr_skips := 0, times_to_pend := 0, times_to_skip := 0,
    fuzz_mode := 0, trigger_mode := 0, round_robin_index := 0, skip_next := false,
    timer_id := 0 }

/-- Concrete record for the C5 witness: a FIXED trigger with two pends per
cycle and one skip. -/
def c5_t1 : InterruptTrigger :=
  { irq := 5, curr_pends := 0, curr_skips := 0, times_to_pend := 2, times_to_skip := 1,
    fuzz_mode := 0, trigger_mode := 0, round_robin_index := 0, skip_next := false,
    timer_id := 0 }

/-- Concrete record for the C6 witness: a FUZZ_ENABLED_INDEX trigger of
TIME_FUZZED delivery past its waiting phase. -/
def c6_t : InterruptTrigger :=
  { irq := 0, curr_pends := 0, curr_skips := 0, times_to_pend := 2, times_to_skip := 0,
    fuzz_mode := 1, trigger_mode := 2, round_robin_index := 0, skip_next := false,
    timer_id := 3 }

/-- Concrete registry for the C8 witness: one registered FIXED trigger. -/
def c8_reg : TriggerRegistry :=
  ⟨[{ irq := 5, curr_pends := 0, curr_skips := 0, times_to_pend := 1, times_to_skip := 0,
      fuzz_mode := 0, trigger_mode := 0, round_robin_index := 0, skip_next := false,
      timer_id := 0 }]⟩

/-- Concrete tick script for the C8 witness: three ticks on record 0. -/
def c8_script : List (Nvic × Nat × List Nat × Bool) :=
  [(⟨[]⟩, 0, [], false), (⟨[]⟩, 0, [], false), (⟨[]⟩, 0, [], true)]

/-- Concrete registry for the C9 witness: the registry obtained by
registering one FIXED ADDRESS trigger with irq 5 into the empty registry. -/
def c9_reg : TriggerRegistry :=
  ⟨[{ irq := 5, curr_pends := 0, curr_skips := 0, times_to_pend := 1, times_to_skip := 0,
      fuzz_mode := 0, trigger_mode := 0, round_robin_index := 0, skip_next := false,
      timer_id := 0 }]⟩

theorem cycle_reset_check_eq_of (t : InterruptTrigger)
    (h : t.curr_pends = t.times_to_pend) :
    cycle_reset_check t = { t with curr_pends := 0, curr_skips := 0, skip_next := true } := by
  unfold cycle_reset_check
  rw [if_pos h]

theorem cycle_reset_check_ne_of (t : InterruptTrigger)
    (h : t.curr_pends ≠ t.times_to_pend) :
    cycle_reset_check t = t := by
  unfold cycle_reset_check
  rw [if_neg h]

theorem cycle_reset_check_fields (t : InterruptTrigger) :
    (cycle_reset_check t).irq = t.irq ∧
    (cycle_reset_check t).round_robin_index = t.round_robin_index ∧
    (cycle_reset_check t).times_to_pend = t.times_to_pend ∧
    (cycle_reset_check t).times_to_skip = t.times_to_skip ∧
    (cycle_reset_check t).fuzz_mode = t.fuzz_mode ∧
    (cycle_reset_check t).trigger_mode = t.trigger_mode ∧
    (cycle_reset_check t).timer_id = t.timer_id := by
  unfold cycle_reset_check
  split <;> simp

theorem fuzz_mode_selector_preserves (nvic : Nvic) (t : InterruptTrigger)
    (fuzz : List Nat) (t1 : InterruptTrigger) (fuzz1 : List Nat)
    (h : fuzz_mode_selector nvic t fuzz = some (t1, fuzz1)) :
    t1.curr_pends = t.curr_pends ∧ t1.curr_skips = t.curr_skips ∧
    t1.times_to_pend = t.times_to_pend ∧ t1.times_to_skip = t.times_to_skip ∧
    t1.skip_next = t.skip_next ∧ t1.trigger_mode = t.trigger_mode ∧
    t1.fuzz_mode = t.fuzz_mode ∧ t1.timer_id = t.timer_id := by
  unfold fuzz_mode_selector at h
  by_cases h0 : t.fuzz_mode = IRQ_FUZZ_MODE_FIXED
  · rw [if_pos h0] at h
    simp only [Option.some.injEq, Prod.mk.injEq] at h
    obtain ⟨h4, h5⟩ := h
    subst h4
    simp
  · rw [if_neg h0] at h
    by_cases h1 : t.fuzz_mode = IRQ_FUZZ_MODE_FUZZ_ENABLED_IRQ_INDEX
    · rw [if_pos h1] at h
      by_cases h2 : get_num_enabled nvic ≠ 0
      · rw [if_pos h2] at h
        by_cases h3 : get_num_enabled nvic ≠ 1
        · rw [if_pos h3] at h
          cases fuzz with
          | nil => exact absurd h (by simp)
          | cons b rest =>
            simp only [Option.some.injEq, Prod.mk.injEq] at h
            obtain ⟨h4, h5⟩ := h
            subst h4
            simp
        · rw [if_neg h3] at h
          simp only [Option.some.injEq, Prod.mk.injEq] at h
          obtain ⟨h4, h5⟩ := h
          subst h4
          simp
      · rw [if_neg h2] at h
        simp only [Option.some.injEq, Prod.mk.injEq] at h
        obtain ⟨h4, h5⟩ := h
        subst h4
        simp
    · rw [if_neg h1] at h
      by_cases h2 : t.fuzz_mode = IRQ_FUZZ_MODE_ROUND_ROBIN
      · rw [if_pos h2] at h
        by_cases h3 : get_num_enabled nvic ≠ 0
        · rw [if_pos h3] at h
          simp only [Option.some.injEq, Prod.mk.injEq] at h
          obtain ⟨h4, h5⟩ := h
          subst h4
          simp
        · rw [if_neg h3] at h
          simp only [Option.some.injEq, Prod.mk.injEq] at h
          obtain ⟨h4, h5⟩ := h
          subst h4
          simp
      · rw [if_neg h2] at h
        simp only [Option.some.injEq, Prod.mk.injEq] at h
        obtain ⟨h4, h5⟩ := h
        subst h4
        simp

theorem tick_eq_absorb (nvic : Nvic) (t : InterruptTrigger) (fuzz : List Nat)
    (hs : t.skip_next = true) :
    interrupt_trigger_tick_block_hook nvic t fuzz =
      { trig := { t with skip_next := false }, fuzz := fuzz, pends := [],
        reload_choices := [] } := by
  unfold interrupt_trigger_tick_block_hook
  rw [hs]
  rfl

theorem tick_eq_train (nvic : Nvic) (t : InterruptTrigger) (fuzz : List Nat)
    (hs : t.skip_next = false) (hp : t.curr_pends ≠ 0) :
    interrupt_trigger_tick_block_hook nvic t fuzz =
      { trig := cycle_reset_check { t with curr_pends := t.curr_pends + 1 },
        fuzz := fuzz, pends := [t.irq], reload_choices := [] } := by
  unfold interrupt_trigger_tick_block_hook
  rw [hs]
  simp [hp]

theorem tick_eq_skip (nvic : Nvic) (t : InterruptTrigger) (fuzz : List Nat)
    (hs : t.skip_next = false) (hp : t.curr_pends = 0)
    (hc : t.curr_skips < t.times_to_skip) :
    interrupt_trigger_tick_block_hook nvic t fuzz =
      { trig := cycle_reset_check { t with curr_skips := t.curr_skips + 1 },
        fuzz := fuzz, pends := [], reload_choices := [] } := by
  unfold interrupt_trigger_tick_block_hook
  rw [hs]
  simp [hp, hc]

theorem tick_eq_selection (nvic : Nvic) (t : InterruptTrigger) (fuzz : List Nat)
    (hs : t.skip_next = false) (hp : t.curr_pends = 0)
    (hk : ¬ t.curr_skips < t.times_to_skip) :
    interrupt_trigger_tick_block_hook nvic t fuzz = selection_step nvic t fuzz := by
  unfold interrupt_trigger_tick_block_hook
  rw [hs]
  simp [hp, hk]

theorem pend_step_fields (t : InterruptTrigger) (fuzz : List Nat) (rc : List Nat) :
    (pend_step t fuzz rc).trig.irq = t.irq ∧
    (pend_step t fuzz rc).trig.round_robin_index = t.round_robin_index ∧
    (pend_step t fuzz rc).fuzz = fuzz := by
  unfold pend_step
  split <;>
    simp [cycle_reset_check_fields _ |>.1, cycle_reset_check_fields _ |>.2.1]

theorem cycle_inv_crc_of_lt (u : InterruptTrigger)
    (h1 : u.curr_pends < u.times_to_pend) (h2 : u.curr_skips ≤ u.times_to_skip) :
    cycle_inv (cycle_reset_check u) := by
  rw [cycle_reset_check_ne_of u (Nat.ne_of_lt h1)]
  exact ⟨h1, h2⟩

theorem cycle_inv_crc_of_le (u : InterruptTrigger)
    (h1 : u.curr_pends ≤ u.times_to_pend) (h0 : 1 ≤ u.times_to_pend)
    (h2 : u.curr_skips ≤ u.times_to_skip) :
    cycle_inv (cycle_reset_check u) := by
  by_cases hc : u.curr_pends = u.times_to_pend
  · rw [cycle_reset_check_eq_of u hc]
    exact ⟨h0, Nat.zero_le _⟩
  · rw [cycle_reset_check_ne_of u hc]
    exact ⟨Nat.lt_of_le_of_ne h1 hc, h2⟩

theorem pend_irq_inv_crc (u : InterruptTrigger) (h : pend_irq_inv u) :
    pend_irq_inv (cycle_reset_check u) := by
  by_cases hc : u.curr_pends = u.times_to_pend
  · rw [cycle_reset_check_eq_of u hc]
    intro hz
    exact absurd rfl hz
  · rw [cycle_reset_check_ne_of u hc]
    exact h

theorem pend_step_pend_irq_inv (t : InterruptTrigger) (fuzz : List Nat)
    (rc : List Nat) (h0 : t.curr_pends = 0) :
    pend_irq_inv (pend_step t fuzz rc).trig ∧ 0 ∉ (pend_step t fuzz rc).pends := by
  unfold pend_step
  by_cases hi : t.irq ≠ 0
  · rw [if_pos hi]
    refine ⟨pend_irq_inv_crc _ ?_, ?_⟩
    · intro _
      exact hi
    · simp only [List.mem_singleton]
      exact fun hz => hi hz.symm
  · rw [if_neg hi]
    refine ⟨pend_irq_inv_crc _ ?_, by simp⟩
    intro hz
    exact absurd h0 hz

theorem pend_step_cycle_inv (t : InterruptTrigger) (fuzz : List Nat)
    (rc : List Nat) (h0 : t.curr_pends = 0) (h : cycle_inv t) :
    cycle_inv (pend_step t fuzz rc).trig := by
  unfold pend_step
  obtain ⟨hp, hsk⟩ := h
  by_cases hi : t.irq ≠ 0
  · rw [if_pos hi]
    refine cycle_inv_crc_of_le _ ?_ ?_ hsk
    · show t.curr_pends + 1 ≤ t.times_to_pend
      omega
    · show 1 ≤ t.times_to_pend
      omega
  · rw [if_neg hi]
    exact cycle_inv_crc_of_lt _ hp hsk

theorem add_ret_shape (reg : TriggerRegistry) (hook_add_ok : Bool)
    (new_timer_id irq num_skips num_pends fuzz_mode trigger_mode every_nth_tick : Nat)
    (code : Int) (reg' : TriggerRegistry)
    (h : add_interrupt_trigger reg hook_add_ok new_timer_id irq num_skips num_pends
        fuzz_mode trigger_mode every_nth_tick = AddResult.ret code reg') :
    ∃ tid : Nat, reg'.triggers = reg.triggers ++
      [{ irq := irq, curr_pends := 0, curr_skips := num_skips,
         times_to_pend := num_pends, times_to_skip := num_skips,
         fuzz_mode := fuzz_mode, trigger_mode := trigger_mode,
         round_robin_index := 0, skip_next := false, timer_id := tid }] := by
  unfold add_interrupt_trigger at h
  by_cases hcap : MAX_INTERRUPT_TRIGGERS ≤ reg.triggers.length
  · rw [if_pos hcap] at h
    exact absurd h (by simp)
  · rw [if_neg hcap] at h
    by_cases hm0 : trigger_mode = IRQ_TRIGGER_MODE_ADDRESS
    · rw [if_pos hm0] at h
      cases hook_add_ok with
      | false => exact absurd h (by simp)
      | true =>
        simp only [if_true] at h
        injection h with h1 h2
        exact ⟨0, by rw [← h2]⟩
    · rw [if_neg hm0] at h
      by_cases hm1 : trigger_mode = IRQ_TRIGGER_MODE_TIME ∨
          trigger_mode = IRQ_TRIGGER_MODE_TIME_FUZZED
      · rw [if_pos hm1] at h
        injection h with h1 h2
        exact ⟨new_timer_id, by rw [← h2]⟩
      · rw [if_neg hm1] at h
        injection h with h1 h2
        exact ⟨0, by rw [← h2]⟩

theorem registry_tick_length (nvic : Nvic) (reg : TriggerRegistry) (i : Nat)
    (fuzz : List Nat) (vt : Bool) :
    (registry_tick nvic reg i fuzz vt).reg.triggers.length = reg.triggers.length := by
  unfold registry_tick
  split <;> simp

theorem run_ticks_length (script : List (Nvic × Nat × List Nat × Bool))
    (reg : TriggerRegistry) :
    (run_ticks reg script).triggers.length = reg.triggers.length := by
  induction script generalizing reg with
  | nil => rfl
  | cons step rest ih =>
    obtain ⟨nvic, i, fuzz, vt⟩ := step
    rw [run_ticks, ih, registry_tick_length]

theorem restore_take_eq (reg reg' : TriggerRegistry)
    (h : reg'.triggers.length = reg.triggers.length) :
    interrupt_trigger_restore_snapshot reg' (interrupt_trigger_take_snapshot reg) = reg := by
  unfold interrupt_trigger_restore_snapshot interrupt_trigger_take_snapshot
  rw [h, List.take_length]

theorem selection_step_eq_none (nvic : Nvic) (t : InterruptTrigger) (fuzz : List Nat)
    (hsel : fuzz_mode_selector nvic t fuzz = none) :
    selection_step nvic t fuzz =
      { trig := t, fuzz := fuzz, pends := [], reload_choices := [] } := by
  unfold selection_step
  rw [hsel]

theorem selection_step_eq_some (nvic : Nvic) (t : InterruptTrigger) (fuzz : List Nat)
    (t1 : InterruptTrigger) (f1 : List Nat)
    (hsel : fuzz_mode_selector nvic t fuzz = some (t1, f1)) :
    selection_step nvic t fuzz =
      (if t1.trigger_mode = IRQ_TRIGGER_MODE_TIME_FUZZED then
        match f1 with
        | [] => { trig := t1, fuzz := f1, pends := [], reload_choices := [] }
        | b :: rest => pend_step t1 rest [(b % 256) % FUZZER_TIME_RELOAD_CHOICES]
      else
        pend_step t1 f1 []) := by
  unfold selection_step
  simp only [hsel]
  cases f1 <;> rfl

theorem timer_cb_trig_eq (nvic : Nvic) (t : InterruptTrigger) (fuzz : List Nat) :
    (interrupt_trigger_timer_cb nvic t fuzz).trig =
      { (interrupt_trigger_tick_block_hook nvic t fuzz).trig with skip_next := false } := rfl

theorem timer_cb_pends_eq (nvic : Nvic) (t : InterruptTrigger) (fuzz : List Nat) :
    (interrupt_trigger_timer_cb nvic t fuzz).pends =
      (interrupt_trigger_tick_block_hook nvic t fuzz).pends := rfl

theorem pend_irq_inv_clear_skip (u : InterruptTrigger) (h : pend_irq_inv u) :
    pend_irq_inv { u with skip_next := false } := h

theorem cycle_inv_clear_skip (u : InterruptTrigger) (h : cycle_inv u) :
    cycle_inv { u with skip_next := false } := h

theorem tick_pend_irq_inv (nvic : Nvic) (t : InterruptTrigger) (fuzz : List Nat)
    (h : pend_irq_inv t) :
    pend_irq_inv (interrupt_trigger_tick_block_hook nvic t fuzz).trig ∧
    0 ∉ (interrupt_trigger_tick_block_hook nvic t fuzz).pends := by
  cases hs : t.skip_next with
  | true =>
    rw [tick_eq_absorb nvic t fuzz hs]
    exact ⟨h, by simp⟩
  | false =>
    by_cases hp : t.curr_pends ≠ 0
    · rw [tick_eq_train nvic t fuzz hs hp]
      constructor
      · exact pend_irq_inv_crc _ (fun _ => h hp)
      · simp only [List.mem_singleton]
        exact fun hz => h hp hz.symm
    · push_neg at hp
      by_cases hc : t.curr_skips < t.times_to_skip
      · rw [tick_eq_skip nvic t fuzz hs hp hc]
        constructor
        · exact pend_irq_inv_crc _ (fun hz => absurd hp hz)
        · simp
      · rw [tick_eq_selection nvic t fuzz hs hp hc]
        cases hsel : fuzz_mode_selector nvic t fuzz with
        | none =>
          rw [selection_step_eq_none nvic t fuzz hsel]
          exact ⟨h, by simp⟩
        | some p =>
          obtain ⟨t1, f1⟩ := p
          rw [selection_step_eq_some nvic t fuzz t1 f1 hsel]
          have hpres := fuzz_mode_selector_preserves nvic t fuzz t1 f1 hsel
          have ht1p : t1.curr_pends = 0 := by rw [hpres.1, hp]
          by_cases htm : t1.trigger_mode = IRQ_TRIGGER_MODE_TIME_FUZZED
          · rw [if_pos htm]
            cases f1 with
            | nil =>
              refine ⟨fun hz => absurd ht1p hz, ?_⟩
              show (0 : Nat) ∉ ([] : List Nat)
              simp
            | cons b rest => exact pend_step_pend_irq_inv t1 rest _ ht1p
          · rw [if_neg htm]
            exact pend_step_pend_irq_inv t1 f1 [] ht1p

theorem tick_cycle_inv (nvic : Nvic) (t : InterruptTrigger) (fuzz : List Nat)
    (h : cycle_inv t) :
    cycle_inv (interrupt_trigger_tick_block_hook nvic t fuzz).trig := by
  obtain ⟨h1, h2⟩ := h
  cases hs : t.skip_next with
  | true =>
    rw [tick_eq_absorb nvic t fuzz hs]
    exact ⟨h1, h2⟩
  | false =>
    by_cases hp : t.curr_pends ≠ 0
    · rw [tick_eq_train nvic t fuzz hs hp]
      refine cycle_inv_crc_of_le _ ?_ ?_ h2
      · show t.curr_pends + 1 ≤ t.times_to_pend
        omega
      · show 1 ≤ t.times_to_pend
        omega
    · push_neg at hp
      by_cases hc : t.curr_skips < t.times_to_skip
      · rw [tick_eq_skip nvic t fuzz hs hp hc]
        refine cycle_inv_crc_of_lt _ h1 ?_
        show t.curr_skips + 1 ≤ t.times_to_skip
        omega
      · rw [tick_eq_selection nvic t fuzz hs hp hc]
        cases hsel : fuzz_mode_selector nvic t fuzz with
        | none =>
          rw [selection_step_eq_none nvic t fuzz hsel]
          exact ⟨h1, h2⟩
        | some p =>
          obtain ⟨t1, f1⟩ := p
          rw [selection_step_eq_some nvic t fuzz t1 f1 hsel]
          have hpres := fuzz_mode_selector_preserves nvic t fuzz t1 f1 hsel
          have hinv1 : cycle_inv t1 := by
            unfold cycle_inv
            rw [hpres.1, hpres.2.1, hpres.2.2.1, hpres.2.2.2.1]
            exact ⟨h1, h2⟩
          have ht1p : t1.curr_pends = 0 := by rw [hpres.1, hp]
          by_cases htm : t1.trigger_mode = IRQ_TRIGGER_MODE_TIME_FUZZED
          · rw [if_pos htm]
            cases f1 with
            | nil => exact hinv1
            | cons b rest => exact pend_step_cycle_inv t1 rest _ ht1p hinv1
          · rw [if_neg htm]
            exact pend_step_cycle_inv t1 f1 [] ht1p hinv1

theorem reachable_pend_irq_inv (reg : TriggerRegistry) (h : ReachableReg reg) :
    ∀ t ∈ reg.triggers, pend_irq_inv t := by
  induction h with
  | init =>
    intro t ht
    exact absurd ht (by simp)
  | add reg ok tid irq ns np fm tm ent code reg' hr heq ih =>
    intro t ht
    obtain ⟨tid', hshape⟩ := add_ret_shape reg ok tid irq ns np fm tm ent code reg' heq
    rw [hshape] at ht
    rcases List.mem_append.mp ht with hmem | hmem
    · exact ih t hmem
    · rw [List.mem_singleton] at hmem
      subst hmem
      exact fun hz => absurd rfl hz
  | tick reg nvic i fuzz vt hr ih =>
    intro t ht
    unfold registry_tick at ht
    revert ht
    cases hget : reg.triggers[i]? with
    | none => exact fun ht => ih t ht
    | some u =>
      intro ht
      have hu : pend_irq_inv u := ih u (List.getElem?_mem hget)
      rcases List.mem_or_eq_of_mem_set ht with hmem | hmem
      · exact ih t hmem
      · subst hmem
        cases vt with
        | false => exact (tick_pend_irq_inv nvic u fuzz hu).1
        | true =>
          show pend_irq_inv (interrupt_trigger_timer_cb nvic u fuzz).trig
          rw [timer_cb_trig_eq]
          exact pend_irq_inv_clear_skip _ (tick_pend_irq_inv nvic u fuzz hu).1
  | restore reg reg' hr hr' hlen ih ih' =>
    intro t ht
    rw [restore_take_eq reg reg' hlen] at ht
    exact ih t ht

/-- C7 (counterexample): registering with the invalid trigger-mode value 7 on
an empty registry does not terminate the process: add_interrupt_trigger
returns the error code -1 instead of exiting, refuting the claim that an
invalid trigger-mode value terminates the process with a diagnostic. -/
theorem c7_counterexample :
    add_interrupt_trigger ⟨[]⟩ true 0 5 0 1 0 7 0 ≠ AddResult.fatal_exit := by
  decide

/-- C7 (amended): registration at exhausted capacity terminates the process,
as does block-hook installation failure in ADDRESS mode; but an invalid
trigger-mode value (outside ADDRESS, TIME, TIME_FUZZED) below capacity does
not terminate: it makes add_interrupt_trigger return -1, with the registry
slot consumed. -/
theorem c7_registration_failure_modes :
    (∀ (reg : TriggerRegistry) (ok : Bool) (tid irq ns np fm tm ent : Nat),
        MAX_INTERRUPT_TRIGGERS ≤ reg.triggers.length →
        add_interrupt_trigger reg ok tid irq ns np fm tm ent = AddResult.fatal_exit) ∧
    (∀ (reg : TriggerRegistry) (tid irq ns np fm ent : Nat),
        reg.triggers.length < MAX_INTERRUPT_TRIGGERS →
        add_interrupt_trigger reg false tid irq ns np fm IRQ_TRIGGER_MODE_ADDRESS ent =
          AddResult.fatal_exit) ∧
    (∀ (reg : TriggerRegistry) (ok : Bool) (tid irq ns np fm tm ent : Nat),
        reg.triggers.length < MAX_INTERRUPT_TRIGGERS →
        tm ≠ IRQ_TRIGGER_MODE_ADDRESS → tm ≠ IRQ_TRIGGER_MODE_TIME →
        tm ≠ IRQ_TRIGGER_MODE_TIME_FUZZED →
        ∃ reg' : TriggerRegistry,
          add_interrupt_trigger reg ok tid irq ns np fm tm ent =
            AddResult.ret (-1) reg' ∧
          reg'.triggers.length = reg.triggers.length + 1) := by
  refine ⟨?_, ?_, ?_⟩
  · intro reg ok tid irq ns np fm tm ent hcap
    unfold add_interrupt_trigger
    rw [if_pos hcap]
  · intro reg tid irq ns np fm ent hcap
    unfold add_interrupt_trigger
    rw [if_neg (not_le.mpr hcap), if_pos rfl]
    simp
  · intro reg ok tid irq ns np fm tm ent hcap h0 h1 h2
    unfold add_interrupt_trigger
    rw [if_neg (not_le.mpr hcap), if_neg h0, if_neg (fun hor => Or.elim hor h1 h2)]
    exact ⟨_, rfl, by simp⟩

/-- C7 (witness): with one below-capacity registry, hook failure in ADDRESS
mode is fatal and trigger mode 9 yields the -1 return. -/
theorem c7_registration_failure_modes_witness :
    add_interrupt_trigger ⟨[]⟩ false 0 5 0 1 0 0 0 = AddResult.fatal_exit ∧
    ∃ reg' : TriggerRegistry,
      add_interrupt_trigger ⟨[]⟩ true 0 5 0 1 0 9 0 = AddResult.ret (-1) reg' ∧
      reg'.triggers.length = (⟨[]⟩ : TriggerRegistry).triggers.length + 1 :=
  ⟨c7_registration_failure_modes.2.1 ⟨[]⟩ 0 5 0 1 0 0 (by decide),
   c7_registration_failure_modes.2.2 ⟨[]⟩ true 0 5 0 1 0 9 0 (by decide)
     (by decide) (by decide) (by decide)⟩

/-- C10: calling add_interrupt_trigger below capacity with a trigger mode
outside ADDRESS, TIME, TIME_FUZZED returns -1 after consuming the registry
slot: the registration count grows by one and the appended record carries
the initialized fields, even though no hook or timer is bound to it. -/
theorem c10_invalid_mode_consumes_slot (reg : TriggerRegistry) (ok : Bool)
    (tid irq ns np fm tm ent : Nat)
    (hcap : reg.triggers.length < MAX_INTERRUPT_TRIGGERS)
    (h0 : tm ≠ IRQ_TRIGGER_MODE_ADDRESS) (h1 : tm ≠ IRQ_TRIGGER_MODE_TIME)
    (h2 : tm ≠ IRQ_TRIGGER_MODE_TIME_FUZZED) :
    add_interrupt_trigger reg ok tid irq ns np fm tm ent =
      AddResult.ret (-1) ⟨reg.triggers ++
        [{ irq := irq, curr_pends := 0, curr_skips := ns, times_to_pend := np,
           times_to_skip := ns, fuzz_mode := fm, trigger_mode := tm,
           round_robin_index := 0, skip_next := false, timer_id := 0 }]⟩ := by
  unfold add_interrupt_trigger
  rw [if_neg (not_le.mpr hcap), if_neg h0, if_neg (fun hor => Or.elim hor h1 h2)]

/-- C10 (witness): concrete invalid-mode registration on the empty registry. -/
theorem c10_invalid_mode_consumes_slot_witness :
    add_interrupt_trigger ⟨[]⟩ true 0 5 1 2 0 9 0 =
      AddResult.ret (-1)
        ⟨[{ irq := 5, curr_pends := 0, curr_skips := 1, times_to_pend := 2,
            times_to_skip := 1, fuzz_mode := 0, trigger_mode := 9,
            round_robin_index := 0, skip_next := false, timer_id := 0 }]⟩ :=
  c10_invalid_mode_consumes_slot ⟨[]⟩ true 0 5 1 2 0 9 0 (by decide) (by decide)
    (by decide) (by decide)

/-- C8: snapshot round-trip. Delivering a tick to any record preserves the
registration count; restoring a snapshot over any registry of the same
count reproduces the snapshotted registry exactly; in particular taking a
snapshot, mutating the records through any script of ticks, and restoring
leaves every registered record identical to its pre-snapshot value. -/
theorem c8_snapshot_round_trip :
    (∀ (nvic : Nvic) (reg : TriggerRegistry) (i : Nat) (fuzz : List Nat) (vt : Bool),
        (registry_tick nvic reg i fuzz vt).reg.triggers.length = reg.triggers.length) ∧
    (∀ reg reg' : TriggerRegistry, reg'.triggers.length = reg.triggers.length →
        interrupt_trigger_restore_snapshot reg'
          (interrupt_trigger_take_snapshot reg) = reg) ∧
    (∀ (reg : TriggerRegistry) (script : List (Nvic × Nat × List Nat × Bool)),
        interrupt_trigger_restore_snapshot (run_ticks reg script)
          (interrupt_trigger_take_snapshot reg) = reg) := by
  refine ⟨registry_tick_length, restore_take_eq, ?_⟩
  intro reg script
  exact restore_take_eq reg (run_ticks reg script) (run_ticks_length script reg)

/-- C8 (witness): a concrete one-trigger registry ticked three times and
then restored from its snapshot is byte-identical to the original. -/
theorem c8_snapshot_round_trip_witness :
    interrupt_trigger_restore_snapshot (run_ticks c8_reg c8_script)
      (interrupt_trigger_take_snapshot c8_reg) = c8_reg :=
  c8_snapshot_round_trip.2.2 c8_reg c8_script

/-- C9: starting from any registry reachable through registration, ticks and
restoration of snapshots taken at reachable states, no tick ever passes irq
0 to nvic_set_pending: the pend list of any delivered tick (block hook or
timer callback, including mid-cycle re-pend ticks, which call
nvic_set_pending without an explicit irq check) never contains 0. -/
theorem c9_nvic_never_pended_with_zero (reg : TriggerRegistry)
    (h : ReachableReg reg) (nvic : Nvic) (i : Nat) (fuzz : List Nat) (vt : Bool) :
    0 ∉ (registry_tick nvic reg i fuzz vt).pends := by
  unfold registry_tick
  cases hget : reg.triggers[i]? with
  | none => simp
  | some u =>
    have hu : pend_irq_inv u :=
      reachable_pend_irq_inv reg h u (List.getElem?_mem hget)
    cases vt with
    | false =>
      show 0 ∉ (interrupt_trigger_tick_block_hook nvic u fuzz).pends
      exact (tick_pend_irq_inv nvic u fuzz hu).2
    | true =>
      show 0 ∉ (interrupt_trigger_timer_cb nvic u fuzz).pends
      rw [timer_cb_pends_eq]
      exact (tick_pend_irq_inv nvic u fuzz hu).2

/-- C9 (witness): a concrete reachable one-trigger registry ticked at index
0 never pends irq 0. -/
theorem c9_nvic_never_pended_with_zero_witness :
    0 ∉ (registry_tick ⟨[]⟩ c9_reg 0 [] false).pends :=
  c9_nvic_never_pended_with_zero c9_reg
    (ReachableReg.add ⟨[]⟩ true 0 5 0 1 0 0 0 0 c9_reg ReachableReg.init (by decide))
    ⟨[]⟩ 0 [] false

theorem pend_step_pends_nonzero (t : InterruptTrigger) (fuzz : List Nat)
    (rc : List Nat) (h : t.irq ≠ 0) : (pend_step t fuzz rc).pends = [t.irq] := by
  unfold pend_step
  rw [if_pos h]

theorem pend_step_pends_zero (t : InterruptTrigger) (fuzz : List Nat)
    (rc : List Nat) (h : t.irq = 0) : (pend_step t fuzz rc).pends = [] := by
  unfold pend_step
  rw [if_neg (by simp [h])]

/-- C1: for a FUZZ_ENABLED_INDEX trigger that reaches the selection step
(and whose trigger mode does not add the separate timing-related fuzz
read): with no enabled IRQ the record's irq becomes 0 and no pending
assertion occurs; with exactly one enabled IRQ that IRQ is selected without
consuming fuzz input; with two or more enabled IRQs one fuzz byte is
consumed and the IRQ at that byte's value reduced modulo the enabled count
in the ordered enabled set is selected. -/
theorem c1_fuzz_enabled_index_selection (nvic : Nvic) (t : InterruptTrigger)
    (fuzz : List Nat)
    (hm : t.fuzz_mode = IRQ_FUZZ_MODE_FUZZ_ENABLED_IRQ_INDEX)
    (hs : t.skip_next = false) (hp : t.curr_pends = 0)
    (hk : ¬ t.curr_skips < t.times_to_skip)
    (ht : t.trigger_mode ≠ IRQ_TRIGGER_MODE_TIME_FUZZED) :
    (nvic.enabled = [] →
      (interrupt_trigger_tick_block_hook nvic t fuzz).trig.irq = 0 ∧
      (interrupt_trigger_tick_block_hook nvic t fuzz).pends = []) ∧
    (∀ x : Nat, nvic.enabled = [x] →
      (interrupt_trigger_tick_block_hook nvic t fuzz).trig.irq = x ∧
      (interrupt_trigger_tick_block_hook nvic t fuzz).fuzz = fuzz) ∧
    (∀ (v : Nat) (rest : List Nat), fuzz = v :: rest → v < 256 →
      2 ≤ nvic.enabled.length →
      (interrupt_trigger_tick_block_hook nvic t fuzz).trig.irq =
        nvic.enabled.getD (v % nvic.enabled.length) 0 ∧
      (interrupt_trigger_tick_block_hook nvic t fuzz).fuzz = rest) := by
  have hfixed : ¬ t.fuzz_mode = IRQ_FUZZ_MODE_FIXED := by
    rw [hm]
    decide
  rw [tick_eq_selection nvic t fuzz hs hp hk]
  refine ⟨?_, ?_, ?_⟩
  · intro he
    have hsel : fuzz_mode_selector nvic t fuzz = some ({ t with irq := 0 }, fuzz) := by
      unfold fuzz_mode_selector
      rw [if_neg hfixed, if_pos hm,
        if_neg (by simp [get_num_enabled, he])]
    rw [selection_step_eq_some nvic t fuzz _ _ hsel,
      if_neg (show ¬({ t with irq := 0 } : InterruptTrigger).trigger_mode =
        IRQ_TRIGGER_MODE_TIME_FUZZED from ht)]
    constructor
    · rw [(pend_step_fields _ _ _).1]
    · exact pend_step_pends_zero _ _ _ rfl
  · intro x he
    have hone : get_num_enabled nvic = 1 := by
      simp [get_num_enabled, he]
    have hsel : fuzz_mode_selector nvic t fuzz =
        some ({ t with irq := nth_enabled_irq_num nvic 0 }, fuzz) := by
      unfold fuzz_mode_selector
      rw [if_neg hfixed, if_pos hm, if_pos (by simp [hone]),
        if_neg (by simp [hone])]
    rw [selection_step_eq_some nvic t fuzz _ _ hsel,
      if_neg (show ¬({ t with irq := nth_enabled_irq_num nvic 0 } :
        InterruptTrigger).trigger_mode = IRQ_TRIGGER_MODE_TIME_FUZZED from ht)]
    constructor
    · rw [(pend_step_fields _ _ _).1]
      show nth_enabled_irq_num nvic 0 = x
      simp [nth_enabled_irq_num, he]
    · exact (pend_step_fields _ _ _).2.2
  · intro v rest hv hv256 hlen
    subst hv
    have hne0 : get_num_enabled nvic ≠ 0 := by
      unfold get_num_enabled
      omega
    have hne1 : get_num_enabled nvic ≠ 1 := by
      unfold get_num_enabled
      omega
    have hsel : fuzz_mode_selector nvic t (v :: rest) =
        some ({ t with irq := nth_enabled_irq_num nvic (v % 256) }, rest) := by
      unfold fuzz_mode_selector
      rw [if_neg hfixed, if_pos hm, if_pos hne0, if_pos hne1]
    rw [selection_step_eq_some nvic t _ _ _ hsel,
      if_neg (show ¬({ t with irq := nth_enabled_irq_num nvic (v % 256) } :
        InterruptTrigger).trigger_mode = IRQ_TRIGGER_MODE_TIME_FUZZED from ht)]
    constructor
    · rw [(pend_step_fields _ _ _).1]
      show nth_enabled_irq_num nvic (v % 256) = nvic.enabled.getD (v % nvic.enabled.length) 0
      unfold nth_enabled_irq_num
      rw [Nat.mod_eq_of_lt hv256]
    · exact (pend_step_fields _ _ _).2.2

/-- C1 (witness): with enabled IRQs 7 and 9 and fuzz byte 3, the selected
IRQ is the one at index 3 mod 2 = 1 of the enabled set, i.e. 9, and the
byte is consumed. -/
theorem c1_fuzz_enabled_index_selection_witness :
    (interrupt_trigger_tick_block_hook ⟨[7, 9]⟩ c1_t [3]).trig.irq = 9 ∧
    (interrupt_trigger_tick_block_hook ⟨[7, 9]⟩ c1_t [3]).fuzz = [] :=
  (c1_fuzz_enabled_index_selection ⟨[7, 9]⟩ c1_t [3] rfl rfl rfl (by decide)
    (by decide)).2.2 3 [] rfl (by decide) (by decide)

/-- C4 (counterexample): a ROUND_ROBIN trigger reaching the selection step
with no IRQ enabled does not increment round_robin_index (it stays 7), so
the cursor does not increase by exactly 1 on every selection-step tick
regardless of the enabled-IRQ count, as the claim states; the chosen irq is
0 on that tick. -/
theorem c4_counterexample :
    (interrupt_trigger_tick_block_hook ⟨[]⟩ c4_t [3]).trig.round_robin_index ≠
      c4_t.round_robin_index + 1 ∧
    (interrupt_trigger_tick_block_hook ⟨[]⟩ c4_t [3]).trig.round_robin_index =
      c4_t.round_robin_index ∧
    (interrupt_trigger_tick_block_hook ⟨[]⟩ c4_t [3]).trig.irq = 0 := by
  decide

/-- C4 (amended): for a ROUND_ROBIN trigger reaching the selection step, if
at least one IRQ is enabled the cursor round_robin_index increases by
exactly 1 (regardless of fuzz outcomes) and the IRQ picked is the one at
the old cursor value modulo the enabled count in the ordered enabled set;
if no IRQ is enabled the cursor is unchanged, irq is set to 0, and no
pending assertion occurs.  Ticks never reset the cursor. -/
theorem c4_round_robin_selection (nvic : Nvic) (t : InterruptTrigger)
    (fuzz : List Nat)
    (hm : t.fuzz_mode = IRQ_FUZZ_MODE_ROUND_ROBIN)
    (hs : t.skip_next = false) (hp : t.curr_pends = 0)
    (hk : ¬ t.curr_skips < t.times_to_skip) :
    (nvic.enabled ≠ [] →
      (interrupt_trigger_tick_block_hook nvic t fuzz).trig.round_robin_index =
        t.round_robin_index + 1 ∧
      (interrupt_trigger_tick_block_hook nvic t fuzz).trig.irq =
        nvic.enabled.getD (t.round_robin_index % nvic.enabled.length) 0) ∧
    (nvic.enabled = [] →
      (interrupt_trigger_tick_block_hook nvic t fuzz).trig.round_robin_index =
        t.round_robin_index ∧
      (interrupt_trigger_tick_block_hook nvic t fuzz).trig.irq = 0 ∧
      (interrupt_trigger_tick_block_hook nvic t fuzz).pends = []) := by
  have hfixed : ¬ t.fuzz_mode = IRQ_FUZZ_MODE_FIXED := by
    rw [hm]
    decide
  have hfei : ¬ t.fuzz_mode = IRQ_FUZZ_MODE_FUZZ_ENABLED_IRQ_INDEX := by
    rw [hm]
    decide
  rw [tick_eq_selection nvic t fuzz hs hp hk]
  constructor
  · intro he
    have hsel : fuzz_mode_selector nvic t fuzz =
        some
          ({ t with
              irq := nth_enabled_irq_num nvic t.round_robin_index
              round_robin_index := t.round_robin_index + 1 },
            fuzz) := by
      unfold fuzz_mode_selector
      rw [if_neg hfixed, if_neg hfei, if_pos hm,
        if_pos (by simp [get_num_enabled, he])]
    rw [selection_step_eq_some nvic t fuzz _ _ hsel]
    by_cases htm : ({ t with
        irq := nth_enabled_irq_num nvic t.round_robin_index
        round_robin_index := t.round_robin_index + 1 } :
        InterruptTrigger).trigger_mode = IRQ_TRIGGER_MODE_TIME_FUZZED
    · rw [if_pos htm]
      cases fuzz with
      | nil => exact ⟨rfl, rfl⟩
      | cons b rest =>
        exact ⟨(pend_step_fields _ _ _).2.1, (pend_step_fields _ _ _).1⟩
    · rw [if_neg htm]
      exact ⟨(pend_step_fields _ _ _).2.1, (pend_step_fields _ _ _).1⟩
  · intro he
    have hsel : fuzz_mode_selector nvic t fuzz =
        some ({ t with irq := 0 }, fuzz) := by
      unfold fuzz_mode_selector
      rw [if_neg hfixed, if_neg hfei, if_pos hm,
        if_neg (by simp [get_num_enabled, he])]
    rw [selection_step_eq_some nvic t fuzz _ _ hsel]
    by_cases htm : ({ t with irq := 0 } : InterruptTrigger).trigger_mode =
        IRQ_TRIGGER_MODE_TIME_FUZZED
    · rw [if_pos htm]
      cases fuzz with
      | nil => exact ⟨rfl, rfl, rfl⟩
      | cons b rest =>
        exact ⟨(pend_step_fields _ _ _).2.1, (pend_step_fields _ _ _).1,
          pend_step_pends_zero _ _ _ rfl⟩
    · rw [if_neg htm]
      exact ⟨(pend_step_fields _ _ _).2.1, (pend_step_fields _ _ _).1,
        pend_step_pends_zero _ _ _ rfl⟩

/-- C4 (witness): with enabled IRQs 4, 6, 8 and cursor 7, the tick picks
the IRQ at index 7 mod 3 = 1, i.e. 6, and advances the cursor to 8. -/
theorem c4_round_robin_selection_witness :
    (interrupt_trigger_tick_block_hook ⟨[4, 6, 8]⟩ c4_t [3]).trig.round_robin_index = 8 ∧
    (interrupt_trigger_tick_block_hook ⟨[4, 6, 8]⟩ c4_t [3]).trig.irq = 6 :=
  (c4_round_robin_selection ⟨[4, 6, 8]⟩ c4_t [3] rfl rfl rfl (by decide)).1
    (by decide)

/-- C6: fuzz-input exhaustion aborts the tick with no further record
mutation. At the selection-site read (FUZZ_ENABLED_INDEX, two or more IRQs
enabled, empty fuzz stream) the whole record is returned unchanged, nothing
is pended and no reload value is set; at the reload-site read (TIME_FUZZED
trigger whose selector left no fuzz bytes) the record as mutated earlier in
the same tick is kept, with no pending assertion, no curr_pends increment,
no reload and no cycle reset. -/
theorem c6_fuzz_exhaustion_aborts_tick :
    (∀ (nvic : Nvic) (t : InterruptTrigger),
      t.skip_next = false → t.curr_pends = 0 → ¬ t.curr_skips < t.times_to_skip →
      t.fuzz_mode = IRQ_FUZZ_MODE_FUZZ_ENABLED_IRQ_INDEX →
      2 ≤ get_num_enabled nvic →
      interrupt_trigger_tick_block_hook nvic t [] =
        { trig := t, fuzz := [], pends := [], reload_choices := [] }) ∧
    (∀ (nvic : Nvic) (t t1 : InterruptTrigger) (fuzz : List Nat),
      t.skip_next = false → t.curr_pends = 0 → ¬ t.curr_skips < t.times_to_skip →
      t.trigger_mode = IRQ_TRIGGER_MODE_TIME_FUZZED →
      fuzz_mode_selector nvic t fuzz = some (t1, []) →
      interrupt_trigger_tick_block_hook nvic t fuzz =
        { trig := t1, fuzz := [], pends := [], reload_choices := [] } ∧
      t1.curr_pends = t.curr_pends ∧ t1.curr_skips = t.curr_skips ∧
      t1.skip_next = t.skip_next) := by
  constructor
  · intro nvic t hs hp hk hm h2
    have hfixed : ¬ t.fuzz_mode = IRQ_FUZZ_MODE_FIXED := by
      rw [hm]
      decide
    have hsel : fuzz_mode_selector nvic t [] = none := by
      unfold fuzz_mode_selector
      rw [if_neg hfixed, if_pos hm, if_pos (by omega), if_pos (by omega)]
    rw [tick_eq_selection nvic t [] hs hp hk, selection_step_eq_none nvic t [] hsel]
  · intro nvic t t1 fuzz hs hp hk htm hsel
    have hpres := fuzz_mode_selector_preserves nvic t fuzz t1 [] hsel
    have htm1 : t1.trigger_mode = IRQ_TRIGGER_MODE_TIME_FUZZED := by
      rw [hpres.2.2.2.2.2.1, htm]
    rw [tick_eq_selection nvic t fuzz hs hp hk,
      selection_step_eq_some nvic t fuzz t1 [] hsel, if_pos htm1]
    exact ⟨rfl, hpres.1, hpres.2.1, hpres.2.2.2.2.1⟩

/-- C6 (witness): a FUZZ_ENABLED_INDEX TIME_FUZZED trigger ticked with two
enabled IRQs and an empty fuzz stream is returned entirely unchanged. -/
theorem c6_fuzz_exhaustion_aborts_tick_witness :
    interrupt_trigger_tick_block_hook ⟨[7, 9]⟩ c6_t [] =
      { trig := c6_t, fuzz := [], pends := [], reload_choices := [] } :=
  c6_fuzz_exhaustion_aborts_tick.1 ⟨[7, 9]⟩ c6_t rfl rfl (by decide) rfl
    (by decide)

/-- C2 (counterexample): for a timer-delivered (TIME mode) trigger, the tick
on which curr_pends reaches times_to_pend does set skip_next inside the
engine, but the timer callback clears it again before the tick ends, so the
very next tick is not absorbed: it mutates the record (curr_skips changes)
instead of only clearing skip_next. -/
theorem c2_counterexample :
    (interrupt_trigger_tick_block_hook ⟨[]⟩ c2_t0 []).trig.skip_next = true ∧
    c2_r1.pends = [5] ∧ c2_r1.trig.curr_pends = 0 ∧ c2_r1.trig.curr_skips = 0 ∧
    c2_r1.trig.skip_next = false ∧
    c2_r2.trig ≠ { c2_r1.trig with skip_next := false } := by
  decide

/-- C2 (amended): a block-hook-delivered tick finding skip_next set is fully
absorbed: the engine only clears skip_next, changes nothing else in the
record, consumes no fuzz input and makes no NVIC call — so for ADDRESS-mode
triggers the tick right after a cycle reset is fully absorbed.  For
timer-delivered ticks the callback unconditionally clears skip_next at the
end of every tick, so the flag set by a cycle reset never survives to the
next timer tick, which is therefore not absorbed. -/
theorem c2_debounce_absorbs_only_address_ticks :
    (∀ (nvic : Nvic) (t : InterruptTrigger) (fuzz : List Nat), t.skip_next = true →
      interrupt_trigger_tick_block_hook nvic t fuzz =
        { trig := { t with skip_next := false }, fuzz := fuzz, pends := [],
          reload_choices := [] }) ∧
    (∀ (nvic : Nvic) (t : InterruptTrigger) (fuzz : List Nat),
      (interrupt_trigger_timer_cb nvic t fuzz).trig.skip_next = false) :=
  ⟨tick_eq_absorb, fun _ _ _ => rfl⟩

/-- C2 (witness): ticking a concrete record with skip_next set only clears
the flag. -/
theorem c2_debounce_absorbs_only_address_ticks_witness :
    interrupt_trigger_tick_block_hook ⟨[]⟩ { c2_t0 with skip_next := true } [] =
      { trig := { { c2_t0 with skip_next := true } with skip_next := false },
        fuzz := [], pends := [], reload_choices := [] } :=
  c2_debounce_absorbs_only_address_ticks.1 ⟨[]⟩ { c2_t0 with skip_next := true } [] rfl

/-- C3 (counterexample): a freshly registered trigger with times_to_skip = 1
does not skip its first tick: registration starts curr_skips at
times_to_skip, so the very first tick runs the selection step and pends
irq 5, leaving curr_skips unchanged, refuting "the first k ticks after
registration are skipped". -/
theorem c3_counterexample :
    add_interrupt_trigger ⟨[]⟩ true 0 5 1 2 0 0 0 = AddResult.ret 0 ⟨[c3_t0]⟩ ∧
    (interrupt_trigger_tick_block_hook ⟨[]⟩ c3_t0 []).pends = [5] ∧
    (interrupt_trigger_tick_block_hook ⟨[]⟩ c3_t0 []).trig.curr_skips =
      c3_t0.curr_skips := by
  decide

theorem tick_skip_phase (nvic : Nvic) (t : InterruptTrigger) (fuzz : List Nat)
    (hs : t.skip_next = false) (hp : t.curr_pends = 0) (hn : 1 ≤ t.times_to_pend)
    (hc : t.curr_skips < t.times_to_skip) :
    interrupt_trigger_tick_block_hook nvic t fuzz =
      { trig := { t with curr_skips := t.curr_skips + 1 }, fuzz := fuzz,
        pends := [], reload_choices := [] } := by
  rw [tick_eq_skip nvic t fuzz hs hp hc,
    cycle_reset_check_ne_of _
      (show ¬({ t with curr_skips := t.curr_skips + 1 } :
        InterruptTrigger).curr_pends =
          ({ t with curr_skips := t.curr_skips + 1 } :
            InterruptTrigger).times_to_pend by
        show ¬t.curr_pends = t.times_to_pend
        omega)]

theorem tick_iter_skip (nvic : Nvic) (t : InterruptTrigger) (fuzz : List Nat)
    (hs : t.skip_next = false) (hp : t.curr_pends = 0)
    (hn : 1 ≤ t.times_to_pend) :
    ∀ j c : Nat, c + j ≤ t.times_to_skip →
      tick_iter nvic j ({ t with curr_skips := c }, fuzz) =
        ({ t with curr_skips := c + j }, fuzz) := by
  intro j
  induction j with
  | zero =>
    intro c hc
    simp [tick_iter]
  | succ n ih =>
    intro c hc
    have hstep : interrupt_trigger_tick_block_hook nvic
        { t with curr_skips := c } fuzz =
        { trig := { t with curr_skips := c + 1 }, fuzz := fuzz, pends := [],
          reload_choices := [] } :=
      tick_skip_phase nvic { t with curr_skips := c } fuzz hs hp hn (by
        show c < t.times_to_skip
        omega)
    simp only [tick_iter]
    rw [hstep]
    have hrec := ih (c + 1) (by omega)
    rw [hrec]
    have harith : c + 1 + n = c + (n + 1) := by omega
    rw [harith]

theorem trigger_eta_curr_skips (t : InterruptTrigger) (h : t.curr_skips = 0) :
    { t with curr_skips := 0 } = t := by
  cases t
  simp_all

/-- C3 (amended): curr_skips starts equal to times_to_skip at registration,
so a freshly registered trigger runs the selection step already on its very
first tick; the k-tick skip phase applies from each cycle reset onward:
starting with curr_skips = 0, the next k = times_to_skip ticks only
increment curr_skips and pend nothing, and the (k+1)-st tick runs the
selection step (shown for a FIXED trigger with nonzero irq, whose selection
tick pends that irq). -/
theorem c3_first_tick_acts_then_skip_phase :
    (∀ (nvic : Nvic) (fuzz : List Nat) (irq ns np : Nat), irq ≠ 0 →
      (interrupt_trigger_tick_block_hook nvic
        (fresh_trigger irq ns np IRQ_FUZZ_MODE_FIXED IRQ_TRIGGER_MODE_ADDRESS)
        fuzz).pends = [irq]) ∧
    (∀ (nvic : Nvic) (fuzz : List Nat) (t : InterruptTrigger),
      t.skip_next = false → t.curr_pends = 0 → t.curr_skips = 0 →
      1 ≤ t.times_to_pend → t.fuzz_mode = IRQ_FUZZ_MODE_FIXED → t.irq ≠ 0 →
      t.trigger_mode ≠ IRQ_TRIGGER_MODE_TIME_FUZZED →
      (∀ j : Nat, j ≤ t.times_to_skip →
        tick_iter nvic j (t, fuzz) = ({ t with curr_skips := j }, fuzz)) ∧
      (interrupt_trigger_tick_block_hook nvic
        { t with curr_skips := t.times_to_skip } fuzz).pends = [t.irq]) := by
  constructor
  · intro nvic fuzz irq ns np hirq
    have hsel : fuzz_mode_selector nvic
        (fresh_trigger irq ns np IRQ_FUZZ_MODE_FIXED IRQ_TRIGGER_MODE_ADDRESS)
        fuzz =
        some (fresh_trigger irq ns np IRQ_FUZZ_MODE_FIXED
          IRQ_TRIGGER_MODE_ADDRESS, fuzz) := by
      unfold fuzz_mode_selector
      rw [if_pos (show (fresh_trigger irq ns np IRQ_FUZZ_MODE_FIXED
        IRQ_TRIGGER_MODE_ADDRESS).fuzz_mode = IRQ_FUZZ_MODE_FIXED from rfl)]
    rw [tick_eq_selection nvic _ fuzz rfl rfl (Nat.lt_irrefl ns),
      selection_step_eq_some nvic _ fuzz _ _ hsel,
      if_neg (show ¬(fresh_trigger irq ns np IRQ_FUZZ_MODE_FIXED
          IRQ_TRIGGER_MODE_ADDRESS).trigger_mode = IRQ_TRIGGER_MODE_TIME_FUZZED by
        simp [fresh_trigger, IRQ_TRIGGER_MODE_ADDRESS, IRQ_TRIGGER_MODE_TIME_FUZZED])]
    exact pend_step_pends_nonzero _ _ _ hirq
  · intro nvic fuzz t hs hp hcs hn hfm hirq htm
    constructor
    · intro j hj
      have hiter := tick_iter_skip nvic t fuzz hs hp hn j 0 (by omega)
      rw [trigger_eta_curr_skips t hcs] at hiter
      rw [hiter]
      have h0j : 0 + j = j := by omega
      rw [h0j]
    · have hsel : fuzz_mode_selector nvic { t with curr_skips := t.times_to_skip }
          fuzz = some ({ t with curr_skips := t.times_to_skip }, fuzz) := by
        unfold fuzz_mode_selector
        rw [if_pos (show ({ t with curr_skips := t.times_to_skip } :
          InterruptTrigger).fuzz_mode = IRQ_FUZZ_MODE_FIXED from hfm)]
      rw [tick_eq_selection nvic { t with curr_skips := t.times_to_skip } fuzz
          (show ({ t with curr_skips := t.times_to_skip } :
            InterruptTrigger).skip_next = false from hs)
          (show ({ t with curr_skips := t.times_to_skip } :
            InterruptTrigger).curr_pends = 0 from hp)
          (Nat.lt_irrefl t.times_to_skip),
        selection_step_eq_some nvic _ fuzz _ _ hsel,
        if_neg (show ¬({ t with curr_skips := t.times_to_skip } :
          InterruptTrigger).trigger_mode = IRQ_TRIGGER_MODE_TIME_FUZZED from htm)]
      exact pend_step_pends_nonzero _ _ _ hirq

/-- C3 (witness): from the post-reset state of a FIXED trigger with one
skip, tick 1 only increments curr_skips and tick 2 pends irq 5. -/
theorem c3_first_tick_acts_then_skip_phase_witness :
    tick_iter ⟨[]⟩ 1 (c3_t1, []) = ({ c3_t1 with curr_skips := 1 }, []) ∧
    (interrupt_trigger_tick_block_hook ⟨[]⟩
      { c3_t1 with curr_skips := c3_t1.times_to_skip } []).pends = [c3_t1.irq] :=
  ⟨(c3_first_tick_acts_then_skip_phase.2 ⟨[]⟩ [] c3_t1 rfl rfl rfl (by decide)
      rfl (by decide) (by decide)).1 1 (by decide),
   (c3_first_tick_acts_then_skip_phase.2 ⟨[]⟩ [] c3_t1 rfl rfl rfl (by decide)
      rfl (by decide) (by decide)).2⟩

/-- C5 (counterexample): with times_to_pend = 0 (a registrable
configuration), the first selection tick of a FIXED trigger pends and
raises curr_pends to 1, which exceeds times_to_pend, and no cycle reset
happens (skip_next stays false), refuting the unrestricted bound. -/
theorem c5_counterexample :
    (interrupt_trigger_tick_block_hook ⟨[]⟩ c5_t0 []).trig.times_to_pend <
      (interrupt_trigger_tick_block_hook ⟨[]⟩ c5_t0 []).trig.curr_pends ∧
    (interrupt_trigger_tick_block_hook ⟨[]⟩ c5_t0 []).trig.skip_next = false := by
  decide

/-- C5 (amended): for triggers whose cycle length is at least one pend
(times_to_pend ≥ 1, as every registration with num_pends ≥ 1 establishes
together with curr_pends = 0 and curr_skips = times_to_skip): every tick
preserves curr_pends < times_to_pend and curr_skips ≤ times_to_skip, and a
pending-train tick on which curr_pends reaches times_to_pend resets the
cycle in that same tick: curr_pends and curr_skips become 0 and skip_next
is set. -/
theorem c5_skip_pend_cycle_bounds :
    (∀ (reg : TriggerRegistry) (ok : Bool) (tid irq ns np fm tm ent : Nat)
        (code : Int) (reg' : TriggerRegistry),
      1 ≤ np →
      add_interrupt_trigger reg ok tid irq ns np fm tm ent =
        AddResult.ret code reg' →
      ∀ u ∈ reg'.triggers, u ∈ reg.triggers ∨ cycle_inv u) ∧
    (∀ (nvic : Nvic) (t : InterruptTrigger) (fuzz : List Nat), cycle_inv t →
      cycle_inv (interrupt_trigger_tick_block_hook nvic t fuzz).trig ∧
      cycle_inv (interrupt_trigger_timer_cb nvic t fuzz).trig) ∧
    (∀ (nvic : Nvic) (t : InterruptTrigger) (fuzz : List Nat),
      t.skip_next = false → t.curr_pends ≠ 0 →
      t.curr_pends + 1 = t.times_to_pend →
      (interrupt_trigger_tick_block_hook nvic t fuzz).trig.curr_pends = 0 ∧
      (interrupt_trigger_tick_block_hook nvic t fuzz).trig.curr_skips = 0 ∧
      (interrupt_trigger_tick_block_hook nvic t fuzz).trig.skip_next = true) := by
  refine ⟨?_, ?_, ?_⟩
  · intro reg ok tid irq ns np fm tm ent code reg' hnp heq u hu
    obtain ⟨tid', hshape⟩ := add_ret_shape reg ok tid irq ns np fm tm ent code
      reg' heq
    rw [hshape] at hu
    rcases List.mem_append.mp hu with hmem | hmem
    · exact Or.inl hmem
    · rw [List.mem_singleton] at hmem
      subst hmem
      exact Or.inr ⟨hnp, Nat.le_refl _⟩
  · intro nvic t fuzz h
    refine ⟨tick_cycle_inv nvic t fuzz h, ?_⟩
    rw [timer_cb_trig_eq]
    exact cycle_inv_clear_skip _ (tick_cycle_inv nvic t fuzz h)
  · intro nvic t fuzz hs hp heq
    rw [tick_eq_train nvic t fuzz hs hp,
      cycle_reset_check_eq_of _
        (show ({ t with curr_pends := t.curr_pends + 1 } :
          InterruptTrigger).curr_pends =
            ({ t with curr_pends := t.curr_pends + 1 } :
              InterruptTrigger).times_to_pend from heq)]
    exact ⟨rfl, rfl, rfl⟩

/-- C5 (witness): a concrete FIXED trigger within bounds stays within
bounds after a tick, and a concrete pending-train tick reaching the pend
count resets the cycle. -/
theorem c5_skip_pend_cycle_bounds_witness :
    cycle_inv (interrupt_trigger_tick_block_hook ⟨[]⟩ c5_t1 []).trig ∧
    (interrupt_trigger_tick_block_hook ⟨[]⟩
      { c5_t1 with curr_pends := 1 } []).trig.skip_next = true :=
  ⟨(c5_skip_pend_cycle_bounds.2.1 ⟨[]⟩ c5_t1 [] ⟨by decide, by decide⟩).1,
   (c5_skip_pend_cycle_bounds.2.2 ⟨[]⟩ { c5_t1 with curr_pends := 1 } [] rfl
      (by decide) (by decide)).2.2⟩

end Fuzzware
